import Mathlib

/-!
Verification of the Trading-view-x-Dhan frontend (dhan-frontend) against its
natural-language specification.  The JavaScript source is shallowly embedded:
JS numbers become `ℚ`, nullable fields become `Option`, `??` / `||` fallback
chains become explicit matches, and the React state transitions triggered by
fetch results become explicit state-passing functions.  The backend paper
ledger / matching engine is not part of the provided sources; where a claim
depends on it, the definition is modelled from the spec and marked as such.
-/

namespace DhanSpec

/-! ## JS helpers -/

/-- JS nullish coalescing `a ?? b` for an optional numeric field. -/
def nz (a : Option ℚ) (b : ℚ) : ℚ :=
  match a with
  | some x => x
  | none => b

/-- JS chain `parseFloat(a ?? b ?? 0)` as used in the holdings/positions tables. -/
def nz2 (a b : Option ℚ) : ℚ :=
  nz a (nz b 0)

/-- JS `a || d` for string fields: `undefined`, `null` and `""` are falsy. -/
def jsOrStr : Option String → String → String
  | some s, d => if s = "" then d else s
  | none, d => d

/-! ## C1: holdings / positions P&L (App.jsx tables)

`App.jsx` (both versions) renders, per positions row:
`avg = parseFloat(p.buyAvg ?? p.avgPrice ?? 0)`,
`ltp = parseFloat(p.ltp ?? p.lastTradedPrice ?? 0)`,
`qtyv = parseFloat(p.netQty ?? p.quantity ?? 0)`, `pnl = (ltp - avg) * qtyv`;
and per holdings row the same with `avgCostPrice ?? averagePrice`,
`lastTradedPrice ?? ltp`, `totalQty ?? quantity`. -/

structure PositionRow where
  buyAvg : Option ℚ
  avgPrice : Option ℚ
  ltp : Option ℚ
  lastTradedPrice : Option ℚ
  netQty : Option ℚ
  quantity : Option ℚ
  deriving DecidableEq

def positionAvg (p : PositionRow) : ℚ := nz2 p.buyAvg p.avgPrice

def positionLtp (p : PositionRow) : ℚ := nz2 p.ltp p.lastTradedPrice

def positionQty (p : PositionRow) : ℚ := nz2 p.netQty p.quantity

/-- The P&L cell of the positions table: `(ltp - avg) * qtyv`. -/
def positionPnl (p : PositionRow) : ℚ :=
  (positionLtp p - positionAvg p) * positionQty p

structure HoldingRow where
  avgCostPrice : Option ℚ
  averagePrice : Option ℚ
  lastTradedPrice : Option ℚ
  ltp : Option ℚ
  totalQty : Option ℚ
  quantity : Option ℚ
  deriving DecidableEq

def holdingAvg (h : HoldingRow) : ℚ := nz2 h.avgCostPrice h.averagePrice

def holdingLtp (h : HoldingRow) : ℚ := nz2 h.lastTradedPrice h.ltp

def holdingQty (h : HoldingRow) : ℚ := nz2 h.totalQty h.quantity

/-- The P&L cell of the holdings table: `(ltp - avg) * qtyv`. -/
def holdingPnl (h : HoldingRow) : ℚ :=
  (holdingLtp h - holdingAvg h) * holdingQty h

/-- sign(q) as written in the spec sentence for claim C1. -/
def ratSign (q : ℚ) : ℚ :=
  if 0 < q then 1 else if q < 0 then -1 else 0

/-- The formula claim C1 asserts for a positions row:
`(last price - avg cost) * net qty * sign(net qty)`. -/
def claimedUnrealizedPos (p : PositionRow) : ℚ :=
  (positionLtp p - positionAvg p) * positionQty p * ratSign (positionQty p)

/-- The formula claim C1 asserts for a holdings row. -/
def claimedUnrealizedHold (h : HoldingRow) : ℚ :=
  (holdingLtp h - holdingAvg h) * holdingQty h * ratSign (holdingQty h)

/-! ## C10: open/closed partition (PaperTrading component, src/unnamed/part_000)

`openTrades = trades.filter(t => t.exit_price === null || t.exit_price === undefined)`
`closedTrades = trades.filter(t => t.exit_price !== null && t.exit_price !== undefined)`
JS `null` and `undefined` are both embedded as `none`. -/

structure LedgerTrade where
  id : ℕ
  side : String
  qty : ℚ
  entry_price : Option ℚ
  exit_price : Option ℚ
  deriving DecidableEq

def openTrades (ts : List LedgerTrade) : List LedgerTrade :=
  ts.filter (fun t => t.exit_price.isNone)

def closedTrades (ts : List LedgerTrade) : List LedgerTrade :=
  ts.filter (fun t => t.exit_price.isSome)

/-! ## C2: FIFO matching engine

The matching engine lives in the backend, which is not among the provided
source files (`PaperTrades.jsx` only consumes its `paired_trades` output), so
it is modelled from the spec, section 4.4. -/

inductive TradeSide
  | buy
  | sell
  deriving DecidableEq

/-- Modelled from the spec: an unmatched opening lot "(each with price and
trade id)" of the per-instrument FIFO queue; the trade id plays no role in
the matched quantities or P&L and is omitted. -/
structure OpenLot where
  qty : ℕ
  price : ℚ
  deriving DecidableEq

/-- Modelled from the spec: a Round-Trip record — matched quantity, entry
price, exit price, gross P&L. -/
structure RoundTrip where
  qty : ℕ
  entryPrice : ℚ
  exitPrice : ℚ
  pnlGross : ℚ
  deriving DecidableEq

/-- Modelled from the spec: the per-instrument ledger state — direction of
the open lots, the FIFO queue of unmatched opening lots, and the round trips
produced so far. -/
structure EngineState where
  dir : Option TradeSide
  lots : List OpenLot
  trips : List RoundTrip
  deriving DecidableEq

structure EngineTrade where
  side : TradeSide
  qty : ℕ
  price : ℚ

/-- Direction sign: "positive sign for original long, negative for original
short" (spec 4.4). -/
def dirSign (d : TradeSide) : ℚ :=
  match d with
  | .buy => 1
  | .sell => -1

/-- Modelled from the spec: FIFO matching of an opposing quantity against the
oldest unmatched opening lots first, "splitting a lot if the new Trade's
quantity is smaller"; each match yields a round trip with
`gross P&L = (exit price - entry price) * matched quantity * direction sign`.
Returns the round trips, the remaining lots, and the unmatched remainder. -/
def matchFifo (exitPrice sign : ℚ) : ℕ → List OpenLot → List RoundTrip × List OpenLot × ℕ
  | q, [] => ([], [], q)
  | q, lot :: rest =>
    if q = 0 then ([], lot :: rest, 0)
    else if q < lot.qty then
      ([⟨q, lot.price, exitPrice, (exitPrice - lot.price) * (q : ℚ) * sign⟩],
        ⟨lot.qty - q, lot.price⟩ :: rest, 0)
    else
      let r := matchFifo exitPrice sign (q - lot.qty) rest
      (⟨lot.qty, lot.price, exitPrice, (exitPrice - lot.price) * (lot.qty : ℚ) * sign⟩ :: r.1,
        r.2.1, r.2.2)

/-- Modelled from the spec: `record(Trade)` of the Trade Ledger & Matching
Engine.  A trade in the direction of the current position is enqueued as a
new opening lot; an opposing trade is matched FIFO; if its quantity exceeds
the total unmatched opening quantity, the remainder becomes a new opening lot
in the new direction (reversal handling). -/
def recordTrade (s : EngineState) (t : EngineTrade) : EngineState :=
  match s.dir with
  | none => { dir := some t.side, lots := [⟨t.qty, t.price⟩], trips := s.trips }
  | some d =>
    if t.side = d then
      { s with lots := s.lots ++ [⟨t.qty, t.price⟩] }
    else
      let m := matchFifo t.price (dirSign d) t.qty s.lots
      if m.2.2 = 0 then
        { dir := if m.2.1.isEmpty then none else some d,
          lots := m.2.1, trips := s.trips ++ m.1 }
      else
        { dir := some t.side, lots := [⟨m.2.2, t.price⟩], trips := s.trips ++ m.1 }

def engineInit : EngineState := ⟨none, [], []⟩

/-- Total gross P&L reported over all round trips. -/
def grossTotal (s : EngineState) : ℚ :=
  (s.trips.map RoundTrip.pnlGross).sum

/-- The trade sequence of claim C2: BUY 10@100, BUY 5@102, SELL 12@110. -/
def c2Final : EngineState :=
  recordTrade
    (recordTrade (recordTrade engineInit ⟨TradeSide.buy, 10, 100⟩) ⟨TradeSide.buy, 5, 102⟩)
    ⟨TradeSide.sell, 12, 110⟩

/-! ## Live-alerts feed model (App.jsx `fetchAlerts` effect) — C3, C4, C5

The observer keeps a never-cleared set of seen backend alert ids
(`seenAlertIdsRef`) and a list of ephemeral cards (`liveAlerts`).  On each
poll, alerts with a falsy id (`if (!id) continue`) or an already-seen id are
skipped; new ones are stamped `_expiry = now + 20000` and prepended, with
already-expired survivors filtered out; a sweeper filters out every card
whose expiry has passed.  Only the id matters for dedup/expiry, so cards are
embedded as id+expiry. -/

structure AlertIn where
  id : Option String
  deriving DecidableEq

structure AlertCard where
  id : String
  expiry : ℕ
  deriving DecidableEq

structure FeedState where
  seen : List String
  live : List AlertCard
  deriving DecidableEq

/-- The dedup loop of `fetchAlerts` (card half): walk the polled alert ids in
order, skip a falsy id (`undefined`/`null`/`""`) or an id already in the seen
set, and otherwise stamp a card with `_expiry = now + 20000`, threading the
id into the seen set for the rest of the walk. -/
def newCards (now : ℕ) : List (Option String) → List String → List AlertCard
  | [], _ => []
  | none :: rest, seen => newCards now rest seen
  | some i :: rest, seen =>
    if i = "" ∨ i ∈ seen then
      newCards now rest seen
    else
      ⟨i, now + 20000⟩ :: newCards now rest (seen ++ [i])

/-- The dedup loop of `fetchAlerts` (seen-set half): the seen set after the
walk, every freshly stamped id having been added. -/
def newSeen : List (Option String) → List String → List String
  | [], seen => seen
  | none :: rest, seen => newSeen rest seen
  | some i :: rest, seen =>
    if i = "" ∨ i ∈ seen then
      newSeen rest seen
    else
      newSeen rest (seen ++ [i])

/-- One successful poll of `/webhook/alerts`: if there are new cards, prepend
them to the surviving (unexpired) cards; otherwise state is untouched apart
from the (unchanged-in-that-case) seen set. -/
def pollStep (now : ℕ) (arr : List AlertIn) (s : FeedState) : FeedState :=
  if (newCards now (arr.map AlertIn.id) s.seen).isEmpty then
    { s with seen := newSeen (arr.map AlertIn.id) s.seen }
  else
    { seen := newSeen (arr.map AlertIn.id) s.seen,
      live := newCards now (arr.map AlertIn.id) s.seen ++
        s.live.filter (fun c => decide (now < c.expiry)) }

/-- One tick of the 1-second sweeper:
`setLiveAlerts(prev => prev.filter(x => Date.now() < x._expiry))`. -/
def sweepStep (now : ℕ) (s : FeedState) : FeedState :=
  { s with live := s.live.filter (fun c => decide (now < c.expiry)) }

inductive FeedEv
  | poll (arr : List AlertIn)
  | sweep
  deriving DecidableEq

def stepEv (e : ℕ × FeedEv) (s : FeedState) : FeedState :=
  match e with
  | (t, FeedEv.poll arr) => pollStep t arr s
  | (t, FeedEv.sweep) => sweepStep t s

def runFeed (s : FeedState) : List (ℕ × FeedEv) → FeedState
  | [] => s
  | e :: tr => runFeed (stepEv e s) tr

/-- Like `runFeed`, but also logs every card ever added to the display. -/
def runFeedLog (s : FeedState) : List (ℕ × FeedEv) → FeedState × List AlertCard
  | [] => (s, [])
  | (t, FeedEv.poll arr) :: tr =>
    ((runFeedLog (pollStep t arr s) tr).1,
      newCards t (arr.map AlertIn.id) s.seen ++ (runFeedLog (pollStep t arr s) tr).2)
  | (t, FeedEv.sweep) :: tr => runFeedLog (sweepStep t s) tr

def feedInit : FeedState := ⟨[], []⟩

/-- Concrete trace for claim C3: alert "a" received at t = 0 ms
(expiry 20000), then a poll at t = 20500 ms that returns the same alert id
(already seen, so nothing new and no filtering happens). -/
def c3Trace : List (ℕ × FeedEv) :=
  [(0, FeedEv.poll [⟨some "a"⟩]), (20500, FeedEv.poll [⟨some "a"⟩])]

/-! ## App state and the alerts fetch — C5

The pieces of React state relevant to the claims; `fetchAlerts` either
succeeds and merges the poll into the feed state, or fails and — the catch
block being empty — changes nothing. -/

structure OrderRow where
  orderId : Option String
  id : Option String
  orderStatus : Option String
  status : Option String
  deriving DecidableEq

structure AppState where
  funds : Option ℚ
  holdings : List HoldingRow
  positions : List PositionRow
  orders : List OrderRow
  feed : FeedState
  notif : Option String
  errorMsg : Option String
  deriving DecidableEq

/-- One run of `fetchAlerts` in App.jsx: on a network error the empty
`catch` swallows it; on success the poll result is merged into the
alert-feed state, touching nothing else. -/
def fetchAlertsStep (now : ℕ) (r : Except Unit (List AlertIn)) (s : AppState) : AppState :=
  match r with
  | .error _ => s
  | .ok arr => { s with feed := pollStep now arr s.feed }

/-! ## C6: cancel gating and the cancel failure path (App.jsx Order Book) -/

/-- JS uppercase conversion, `String(...).toUpperCase()`. -/
def upperStr (s : String) : String := ⟨s.data.map Char.toUpper⟩

/-- JS `hay.includes(need)` on character lists: some contiguous run of `hay`
equals `need`. -/
def strHas (need : List Char) : List Char → Bool
  | [] => need.isEmpty
  | c :: t => need.isPrefixOf (c :: t) || strHas need t

/-- The order-status string used by the Order Book row:
`String(o.orderStatus || o.status || "")`. -/
def statusStr (o : OrderRow) : String :=
  jsOrStr o.orderStatus (jsOrStr o.status "")

/-- The Order Book gate deciding whether a Cancel button is rendered:
`status.toUpperCase().includes("PENDING") || status.toUpperCase().includes("OPEN")`. -/
def cancelActionShown (o : OrderRow) : Bool :=
  strHas ("PENDING").data (upperStr (statusStr o)).data ||
    strHas ("OPEN").data (upperStr (statusStr o)).data

/-- Case-insensitive containment, the spec-side reading of the gate. -/
def containsCI (hay needle : String) : Bool :=
  strHas (upperStr needle).data (upperStr hay).data

structure CancelResponse where
  status : Option String
  message : Option String
  deriving DecidableEq

/-- Step of `handleCancel` once the `/order/cancel` response arrives: on success a
toast is shown and the orders are refetched (`fetched` is what `/orders`
returns); otherwise only a failure toast is shown and the order list is left
alone. -/
def handleCancelStep (r : CancelResponse) (fetched : List OrderRow) (s : AppState) : AppState :=
  if r.status = some "success" then
    { s with notif := some "Order cancelled", orders := fetched }
  else
    { s with notif := some ("Cancel failed: " ++ jsOrStr r.message "Unknown") }

/-! ## C7: bulk clear of the paper ledger (PaperTrades.jsx `clearTrades`) -/

/-- UI-plus-backend state for the paper-trading panel, with a log of the
HTTP requests the UI issues. -/
structure PaperState where
  backendTrades : List LedgerTrade
  displayed : List LedgerTrade
  requests : List String
  deriving DecidableEq

/-- Modelled from the spec: the backend `/paper/clear` endpoint (`clear()` of
the Trade Ledger, not among the provided sources) wipes the trade log —
"after `clear()`, snapshot() returns zero trades" — and reports success. -/
def paperClearBackend (_ledger : List LedgerTrade) : List LedgerTrade × Bool :=
  ([], true)

/-- Modelled from the spec: `/paper/trades` returns the backend trade log. -/
def paperFetchTrades (ledger : List LedgerTrade) : List LedgerTrade := ledger

/-- The `clearTrades` handler in PaperTrades.jsx: bail out unless the user confirmed the
`confirm("Clear ALL paper trades? ...")` dialog; otherwise POST
`/paper/clear` and, on success, refetch `/paper/trades`. -/
def clearTrades (confirmed : Bool) (s : PaperState) : PaperState :=
  if confirmed = false then s
  else
    let r := paperClearBackend s.backendTrades
    if r.2 then
      { backendTrades := r.1,
        displayed := paperFetchTrades r.1,
        requests := s.requests ++ ["/paper/clear", "/paper/trades"] }
    else
      { s with requests := s.requests ++ ["/paper/clear"] }

/-! ## C8, C9: the two `handlePlaceOrder` versions

Form state as it exists when the user submits: a selected instrument with a
security id, the segment/side/qty/product/validity selections, the order
type, and the contents of the (number-typed) limit-price input.  An empty or
non-numeric price input is `PriceField.empty` (JS: `Number("") = 0`,
`Number(junk) = NaN`, and `NaN || 0 = 0`; `parseFloat("" || 0) = 0`). -/

inductive OrderType
  | MARKET
  | LIMIT
  deriving DecidableEq

inductive PriceField
  | empty
  | num (q : ℚ)
  deriving DecidableEq

structure OrderForm where
  tradingSymbol : String
  securityId : String
  segment : String
  side : String
  qty : ℚ
  orderType : OrderType
  price : PriceField
  productType : String
  validity : String
  deriving DecidableEq

structure PlaceParams where
  symbol : String
  security_id : String
  segment : String
  side : String
  qty : ℚ
  order_type : OrderType
  price : ℚ
  product_type : String
  validity : String
  deriving DecidableEq

/-- The new handler price expression `Number(price) || 0`. -/
def jsNumberOr0 : PriceField → ℚ
  | .empty => 0
  | .num q => q

/-- The old handler LIMIT-branch price expression `parseFloat(price || 0)`. -/
def parseFloatOr0 : PriceField → ℚ
  | .empty => 0
  | .num q => q

/-- The `/order/place` params built by the new `handlePlaceOrder`
(App.jsx lines 236-246): `price: Number(price) || 0` for every order type. -/
def newOrderParams (f : OrderForm) : PlaceParams :=
  { symbol := f.tradingSymbol
    security_id := f.securityId
    segment := f.segment
    side := f.side
    qty := f.qty
    order_type := f.orderType
    price := jsNumberOr0 f.price
    product_type := f.productType
    validity := f.validity }

/-- The `/order/place` params built by the old `handlePlaceOrder`
(App.jsx lines 888-898): `price: orderType === "LIMIT" ? parseFloat(price || 0) : 0`. -/
def oldOrderParams (f : OrderForm) : PlaceParams :=
  { symbol := f.tradingSymbol
    security_id := f.securityId
    segment := f.segment
    side := f.side
    qty := f.qty
    order_type := f.orderType
    price := if f.orderType = OrderType.LIMIT then parseFloatOr0 f.price else 0
    product_type := f.productType
    validity := f.validity }

/-- Concrete form state: a MARKET order submitted while the price field
still holds 105 (entered earlier, while LIMIT was selected). -/
def formMarket105 : OrderForm :=
  { tradingSymbol := "NIFTY"
    securityId := "101"
    segment := "NSE_FNO"
    side := "BUY"
    qty := 50
    orderType := OrderType.MARKET
    price := PriceField.num 105
    productType := "INTRADAY"
    validity := "DAY" }

/-! ## Helper lemmas -/

lemma ratSign_mul_abs (q : ℚ) : ratSign q * |q| = q := by
  rcases lt_trichotomy 0 q with h | h | h
  · rw [ratSign, if_pos h, one_mul, abs_of_pos h]
  · subst h; simp [ratSign]
  · rw [ratSign, if_neg (by linarith), if_pos h, abs_of_neg h]; ring

lemma pollStep_seen (now : ℕ) (arr : List AlertIn) (s : FeedState) :
    (pollStep now arr s).seen = newSeen (arr.map AlertIn.id) s.seen := by
  unfold pollStep
  split <;> rfl

lemma newCards_expiry (now : ℕ) :
    ∀ (arr : List (Option String)) (seen : List String) (c : AlertCard),
      c ∈ newCards now arr seen → c.expiry = now + 20000 := by
  intro arr
  induction arr with
  | nil =>
    intro seen c hc
    simp [newCards] at hc
  | cons a rest ih =>
    intro seen c hc
    cases a with
    | none =>
      simp only [newCards] at hc
      exact ih seen c hc
    | some i =>
      simp only [newCards] at hc
      by_cases hcond : i = "" ∨ i ∈ seen
      · rw [if_pos hcond] at hc
        exact ih seen c hc
      · rw [if_neg hcond] at hc
        rcases List.mem_cons.mp hc with hc | hc
        · rw [hc]
        · exact ih (seen ++ [i]) c hc

lemma newCards_id_ne (now : ℕ) :
    ∀ (arr : List (Option String)) (seen : List String) (c : AlertCard),
      c ∈ newCards now arr seen → ¬ c.id = "" := by
  intro arr
  induction arr with
  | nil =>
    intro seen c hc
    simp [newCards] at hc
  | cons a rest ih =>
    intro seen c hc
    cases a with
    | none =>
      simp only [newCards] at hc
      exact ih seen c hc
    | some i =>
      simp only [newCards] at hc
      by_cases hcond : i = "" ∨ i ∈ seen
      · rw [if_pos hcond] at hc
        exact ih seen c hc
      · rw [if_neg hcond] at hc
        rcases List.mem_cons.mp hc with hc | hc
        · rw [hc]
          exact fun h => hcond (Or.inl h)
        · exact ih (seen ++ [i]) c hc

lemma newSeen_sub :
    ∀ (arr : List (Option String)) (seen : List String) (x : String),
      x ∈ seen → x ∈ newSeen arr seen := by
  intro arr
  induction arr with
  | nil =>
    intro seen x hx
    simpa [newSeen] using hx
  | cons a rest ih =>
    intro seen x hx
    cases a with
    | none =>
      simp only [newSeen]
      exact ih seen x hx
    | some i =>
      simp only [newSeen]
      by_cases hcond : i = "" ∨ i ∈ seen
      · rw [if_pos hcond]
        exact ih seen x hx
      · rw [if_neg hcond]
        exact ih (seen ++ [i]) x (List.mem_append.mpr (Or.inl hx))

lemma newCards_count (now : ℕ) (i : String) :
    ∀ (arr : List (Option String)) (seen : List String),
      ((newCards now arr seen).filter (fun c => decide (c.id = i))).length +
          (if i ∈ seen then 1 else 0) ≤
        (if i ∈ newSeen arr seen then 1 else 0) := by
  intro arr
  induction arr with
  | nil =>
    intro seen
    simp [newCards, newSeen]
  | cons a rest ih =>
    intro seen
    cases a with
    | none =>
      simp only [newCards, newSeen]
      exact ih seen
    | some j =>
      by_cases hcond : j = "" ∨ j ∈ seen
      · have h1 : newCards now (some j :: rest) seen = newCards now rest seen := by
          simp only [newCards]
          rw [if_pos hcond]
        have h2 : newSeen (some j :: rest) seen = newSeen rest seen := by
          simp only [newSeen]
          rw [if_pos hcond]
        simp only [h1, h2]
        exact ih seen
      · have h1 : newCards now (some j :: rest) seen =
            ⟨j, now + 20000⟩ :: newCards now rest (seen ++ [j]) := by
          simp only [newCards]
          rw [if_neg hcond]
        have h2 : newSeen (some j :: rest) seen = newSeen rest (seen ++ [j]) := by
          simp only [newSeen]
          rw [if_neg hcond]
        simp only [h1, h2, List.filter_cons]
        have hj : ¬ j ∈ seen := fun h => hcond (Or.inr h)
        have ihh := ih (seen ++ [j])
        by_cases hji : j = i
        · subst hji
          have hmem : j ∈ seen ++ [j] := by simp
          simp only [eq_true hmem, if_true] at ihh
          simp only [eq_self_iff_true, decide_True, if_true, eq_false hj, if_false,
            List.length_cons]
          by_cases hr : j ∈ newSeen rest (seen ++ [j])
          · simp only [eq_true hr, if_true] at ihh ⊢
            omega
          · simp only [eq_false hr, if_false] at ihh ⊢
            omega
        · have hmem : (i ∈ seen ++ [j]) = (i ∈ seen) := by
            simp only [List.mem_append, List.mem_singleton, eq_iff_iff]
            constructor
            · rintro (h | h)
              · exact h
              · exact absurd h.symm hji
            · exact Or.inl
          simp only [hmem] at ihh
          have hid : (decide ((⟨j, now + 20000⟩ : AlertCard).id = i)) = false := by
            simp [hji]
          simp only [hid, Bool.false_eq_true, if_false]
          exact ihh

lemma runFeedLog_count (i : String) :
    ∀ (tr : List (ℕ × FeedEv)) (s : FeedState),
      (((runFeedLog s tr).2).filter (fun c => decide (c.id = i))).length +
          (if i ∈ s.seen then 1 else 0) ≤ 1 := by
  intro tr
  induction tr with
  | nil =>
    intro s
    simp only [runFeedLog, List.filter_nil, List.length_nil, Nat.zero_add]
    split <;> omega
  | cons e tr ih =>
    intro s
    obtain ⟨t, ev⟩ := e
    cases ev with
    | sweep =>
      exact ih (sweepStep t s)
    | poll arr =>
      simp only [runFeedLog, List.filter_append, List.length_append]
      have h1 := newCards_count t i (arr.map AlertIn.id) s.seen
      have h2 := ih (pollStep t arr s)
      rw [pollStep_seen] at h2
      by_cases ha : i ∈ s.seen <;> by_cases hb : i ∈ newSeen (arr.map AlertIn.id) s.seen <;>
        simp only [ha, hb, if_true, if_false] at h1 h2 ⊢ <;> omega

lemma runFeedLog_id_ne :
    ∀ (tr : List (ℕ × FeedEv)) (s : FeedState) (c : AlertCard),
      c ∈ (runFeedLog s tr).2 → ¬ c.id = "" := by
  intro tr
  induction tr with
  | nil =>
    intro s c hc
    simp [runFeedLog] at hc
  | cons e tr ih =>
    intro s c hc
    obtain ⟨t, ev⟩ := e
    cases ev with
    | sweep => exact ih (sweepStep t s) c hc
    | poll arr =>
      simp only [runFeedLog] at hc
      rcases List.mem_append.mp hc with hc | hc
      · exact newCards_id_ne t (arr.map AlertIn.id) s.seen c hc
      · exact ih (pollStep t arr s) c hc

lemma stepEv_seen_mono (e : ℕ × FeedEv) (s : FeedState) (x : String) :
    x ∈ s.seen → x ∈ (stepEv e s).seen := by
  obtain ⟨t, ev⟩ := e
  cases ev with
  | sweep => exact fun hx => hx
  | poll arr =>
    intro hx
    show x ∈ (pollStep t arr s).seen
    rw [pollStep_seen]
    exact newSeen_sub (arr.map AlertIn.id) s.seen x hx

lemma sweepStep_live (now : ℕ) (s : FeedState) (c : AlertCard) :
    c ∈ (sweepStep now s).live → now < c.expiry := by
  intro hc
  exact of_decide_eq_true (List.mem_filter.mp hc).2

lemma pollStep_live (now : ℕ) (arr : List AlertIn) (s : FeedState) (c : AlertCard) :
    c ∈ (pollStep now arr s).live → c ∈ s.live ∨ c.expiry = now + 20000 := by
  intro hc
  unfold pollStep at hc
  split at hc
  · exact Or.inl hc
  · rcases List.mem_append.mp hc with hc | hc
    · exact Or.inr (newCards_expiry now (arr.map AlertIn.id) s.seen c hc)
    · exact Or.inl (List.mem_filter.mp hc).1

lemma upper_pending : upperStr "pending" = "PENDING" := by decide

lemma upper_open : upperStr "open" = "OPEN" := by decide

/-! ## Claim theorems -/

/-- Claim C1, counterexample: on a short position (netQty = −5, avg 100,
LTP 110) the table shows (110 − 100) × (−5) = −50, whereas the claimed
formula (last − avg) × netQty × sign(netQty) gives 50.  The code applies no
sign factor. -/
theorem c1_counterexample :
    positionPnl ⟨some 100, none, some 110, none, some (-5), none⟩ ≠
      claimedUnrealizedPos ⟨some 100, none, some 110, none, some (-5), none⟩ := by
  norm_num [positionPnl, claimedUnrealizedPos, positionLtp, positionAvg, positionQty,
    nz2, nz, ratSign]

/-- Claim C1, amended: the reported unrealized P&L equals
(last price − avg cost) × sign(net qty) × |net qty| — i.e. the sign enters
once, through the signed net quantity, not as an extra factor; for holdings
(whose quantity is non-negative) the originally claimed formula does hold. -/
theorem c1_amended :
    (∀ p : PositionRow,
        positionPnl p =
          (positionLtp p - positionAvg p) * ratSign (positionQty p) * |positionQty p|) ∧
    (∀ h : HoldingRow, 0 ≤ holdingQty h → holdingPnl h = claimedUnrealizedHold h) := by
  constructor
  · intro p
    rw [positionPnl, mul_assoc, ratSign_mul_abs]
  · intro h hq
    rcases lt_or_eq_of_le hq with h1 | h1
    · rw [claimedUnrealizedHold, ratSign, if_pos h1, mul_one, holdingPnl]
    · simp [holdingPnl, claimedUnrealizedHold, ← h1]

/-- Witness for C1 (amended), at a concrete long holding. -/
theorem c1_amended_witness :
    holdingPnl ⟨some 100, none, some 110, none, some 5, none⟩ =
      claimedUnrealizedHold ⟨some 100, none, some 110, none, some 5, none⟩ :=
  c1_amended.2 ⟨some 100, none, some 110, none, some 5, none⟩ (by decide)

/-- Claim C2: for BUY 10@100, BUY 5@102, SELL 12@110 the FIFO engine
(modelled from the spec) produces round trips 10@100→110 (P&L 100) and
2@102→110 (P&L 16), leaves 3 unmatched long at 102, and reports gross
P&L 116. -/
theorem c2_fifo :
    c2Final.trips = [⟨10, 100, 110, 100⟩, ⟨2, 102, 110, 16⟩] ∧
      c2Final.lots = [⟨3, 102⟩] ∧
      c2Final.dir = some TradeSide.buy ∧
      grossTotal c2Final = 116 := by
  norm_num [c2Final, recordTrade, engineInit, matchFifo, dirSign, grossTotal, List.isEmpty,
    eq_false (show ¬ TradeSide.sell = TradeSide.buy by decide)]

/-- Claim C3, counterexample: alert "a" is received at t = 0 and stamped
with expiry 20000 ms; a later poll at t = 20500 returns only the already
seen id, so nothing is filtered and the expired card is still in the
displayed list after an event 20.5 s after receipt — the card is not
removed within its 20-second window. -/
theorem c3_counterexample :
    (runFeed feedInit c3Trace).live = [⟨"a", 20000⟩] ∧ (20000 : ℕ) < 20500 := by
  constructor
  · decide
  · decide

/-- Claim C3, amended: every newly seen alert is stamped with expiry =
receipt + 20000 ms, and a sweep at time t removes every card whose expiry
has passed, so a card is gone after the first sweep at or after its expiry —
but between sweeps (which run every 1000 ms) an expired card may remain
displayed, so display can exceed the 20-second window by up to one sweep
interval. -/
theorem c3_amended :
    (∀ (t : ℕ) (s : FeedState) (c : AlertCard), c ∈ (sweepStep t s).live → t < c.expiry) ∧
    (∀ (t : ℕ) (arr : List AlertIn) (s : FeedState) (c : AlertCard),
        c ∈ (pollStep t arr s).live → c ∈ s.live ∨ c.expiry = t + 20000) :=
  ⟨sweepStep_live, pollStep_live⟩

/-- Witness for C3 (amended): a concrete card surviving a sweep at t = 5 has
5 < expiry. -/
theorem c3_amended_witness : 5 < (AlertCard.mk "a" 20000).expiry :=
  c3_amended.1 5 ⟨["a"], [⟨"a", 20000⟩]⟩ ⟨"a", 20000⟩ (by decide)

/-- Claim C4: the seen-set only ever grows, across any trace of polls and
sweeps at most one card with a given feed-event id is ever added to the
display, and no added card carries a falsy id. -/
theorem c4_dedup :
    (∀ (e : ℕ × FeedEv) (s : FeedState) (x : String), x ∈ s.seen → x ∈ (stepEv e s).seen) ∧
    (∀ (tr : List (ℕ × FeedEv)) (i : String),
        (((runFeedLog feedInit tr).2).filter (fun c => decide (c.id = i))).length ≤ 1) ∧
    (∀ (tr : List (ℕ × FeedEv)) (c : AlertCard),
        c ∈ (runFeedLog feedInit tr).2 → ¬ c.id = "") := by
  refine ⟨stepEv_seen_mono, ?_, ?_⟩
  · intro tr i
    have h := runFeedLog_count i tr feedInit
    simpa [feedInit] using h
  · intro tr c hc
    exact runFeedLog_id_ne tr feedInit c hc

/-- Witness for C4, seen-set monotonicity at a concrete state and event. -/
theorem c4_dedup_witness : ("a" : String) ∈ (stepEv (0, FeedEv.sweep) ⟨["a"], []⟩).seen :=
  c4_dedup.1 (0, FeedEv.sweep) ⟨["a"], []⟩ "a" (by decide)

/-- Claim C5: a failed alerts poll (empty catch) leaves the whole app state
exactly as it was; even a successful poll touches nothing but the feed
state — orders, positions, holdings and funds are untouched. -/
theorem c5_frame :
    (∀ (now : ℕ) (e : Unit) (s : AppState), fetchAlertsStep now (Except.error e) s = s) ∧
    (∀ (now : ℕ) (arr : List AlertIn) (s : AppState),
        (fetchAlertsStep now (Except.ok arr) s).orders = s.orders ∧
        (fetchAlertsStep now (Except.ok arr) s).positions = s.positions ∧
        (fetchAlertsStep now (Except.ok arr) s).holdings = s.holdings ∧
        (fetchAlertsStep now (Except.ok arr) s).funds = s.funds) :=
  ⟨fun _ _ _ => rfl, fun _ _ _ => ⟨rfl, rfl, rfl, rfl⟩⟩

/-- Claim C6: a Cancel action is offered exactly when the order's status
string contains "PENDING" or "OPEN" case-insensitively, and a non-success
cancel response only surfaces a failure message, leaving the order list
unchanged. -/
theorem c6_cancel :
    (∀ o : OrderRow,
        cancelActionShown o = true ↔
          (containsCI (statusStr o) "pending" = true ∨
            containsCI (statusStr o) "open" = true)) ∧
    (∀ (r : CancelResponse) (fetched : List OrderRow) (s : AppState),
        ¬ r.status = some "success" →
          (handleCancelStep r fetched s).orders = s.orders ∧
          (handleCancelStep r fetched s).notif =
            some ("Cancel failed: " ++ jsOrStr r.message "Unknown")) := by
  constructor
  · intro o
    simp only [containsCI, cancelActionShown, upper_pending, upper_open, Bool.or_eq_true]
  · intro r fetched s hr
    rw [handleCancelStep, if_neg hr]
    exact ⟨rfl, rfl⟩

def appState0 : AppState := ⟨none, [], [], [], feedInit, none, none⟩

/-- Witness for C6, at a concrete failed cancel response. -/
theorem c6_cancel_witness :
    (handleCancelStep ⟨some "failure", none⟩ [] appState0).orders = appState0.orders ∧
    (handleCancelStep ⟨some "failure", none⟩ [] appState0).notif =
      some ("Cancel failed: " ++
        jsOrStr (CancelResponse.mk (some "failure") none).message "Unknown") :=
  c6_cancel.2 ⟨some "failure", none⟩ [] appState0 (by decide)

/-- Claim C7: declining the confirmation dialog leaves everything — issued
requests included — untouched; a confirmed clear wipes the backend ledger
(spec-modelled) and refetches, so the displayed trade list is empty. -/
theorem c7_clear :
    (∀ s : PaperState, clearTrades false s = s) ∧
    (∀ s : PaperState,
        (clearTrades true s).displayed = [] ∧
        (clearTrades true s).backendTrades = [] ∧
        (clearTrades true s).requests = s.requests ++ ["/paper/clear", "/paper/trades"]) :=
  ⟨fun _ => rfl, fun _ => ⟨rfl, rfl, rfl⟩⟩

/-- Claim C8, counterexample: the new handler submits
`price: Number(price) || 0` regardless of order type, so a MARKET order
placed while the price field still holds 105 carries price 105, not 0. -/
theorem c8_counterexample :
    formMarket105.orderType = OrderType.MARKET ∧
      ¬ (newOrderParams formMarket105).price = 0 := by
  decide

/-- Claim C8, amended: the old handler submits the entered price for LIMIT
and exactly 0 for MARKET; the new handler submits Number(entered) || 0 for
every order type (so it agrees with the claim for LIMIT, but its MARKET
price is 0 only when the price field is empty). -/
theorem c8_amended :
    (∀ f : OrderForm, f.orderType = OrderType.MARKET → (oldOrderParams f).price = 0) ∧
    (∀ (f : OrderForm) (q : ℚ),
        f.orderType = OrderType.LIMIT → f.price = PriceField.num q →
          (oldOrderParams f).price = q ∧ (newOrderParams f).price = q) ∧
    (∀ f : OrderForm,
        f.price = PriceField.empty → (newOrderParams f).price = 0) := by
  refine ⟨?_, ?_, ?_⟩
  · intro f hf
    simp [oldOrderParams, hf]
  · intro f q h1 h2
    constructor <;> simp [oldOrderParams, newOrderParams, h1, h2, jsNumberOr0, parseFloatOr0]
  · intro f hf
    simp [newOrderParams, hf, jsNumberOr0]

/-- Witness for C8 (amended): the old handler's MARKET price is 0 even with
a leftover entered price. -/
theorem c8_amended_witness : (oldOrderParams formMarket105).price = 0 :=
  c8_amended.1 formMarket105 (by decide)

/-- Claim C9, counterexample: on the same form state — MARKET order with a
leftover entered price of 105 — the two handlers build different
`/order/place` parameters (old price 0, new price 105). -/
theorem c9_counterexample :
    ¬ oldOrderParams formMarket105 = newOrderParams formMarket105 := by
  decide

/-- Claim C9, amended: the two handlers build identical request parameters
whenever the order type is LIMIT, or the price field is empty or holds 0 —
i.e. they differ exactly on MARKET orders with a leftover nonzero entered
price. -/
theorem c9_amended :
    ∀ f : OrderForm,
      f.orderType = OrderType.LIMIT ∨ f.price = PriceField.empty ∨
          f.price = PriceField.num 0 →
        oldOrderParams f = newOrderParams f := by
  intro f h
  have hp : (if f.orderType = OrderType.LIMIT then parseFloatOr0 f.price else 0) =
      jsNumberOr0 f.price := by
    rcases h with h | h | h
    · rw [if_pos h]
      cases f.price <;> rfl
    · rw [h]
      split <;> rfl
    · rw [h]
      split <;> rfl
  unfold oldOrderParams newOrderParams
  rw [hp]

/-- Witness for C9 (amended): with LIMIT selected the two handlers agree. -/
theorem c9_amended_witness :
    oldOrderParams { formMarket105 with orderType := OrderType.LIMIT } =
      newOrderParams { formMarket105 with orderType := OrderType.LIMIT } :=
  c9_amended { formMarket105 with orderType := OrderType.LIMIT } (Or.inl (by decide))

/-- Claim C10: every trade is classified into exactly one of the open list
(exit_price null/undefined) and the closed list (exit_price present), so the
open count plus the closed count always equals the total count. -/
theorem c10_partition :
    ∀ ts : List LedgerTrade, (openTrades ts).length + (closedTrades ts).length = ts.length := by
  intro ts
  induction ts with
  | nil => rfl
  | cons t ts ih =>
    simp only [openTrades, closedTrades, List.filter_cons] at ih ⊢
    cases hx : t.exit_price <;> simp [hx] <;> omega

end DhanSpec
